import Mathlib

/-!
# Shallow embedding of `examples/train.py` (BoltzmannGenerator)

This file embeds the training script of the BoltzmannGenerator repository:
the per-step dual-objective loss computation, the periodic validate-and-log
pass, the finalizing phase, the `__main__` configuration gates, the
trajectory loader and the train/validation split.  Real-valued tensor
quantities are modelled over `ℚ`; a conformation or latent vector is a
`List ℚ` and a batch is a `List (List ℚ)`.  The normalizing-flow network,
the OpenMM energy oracle and the energy regularizer are external
collaborators of this script, so they enter the embedding as abstract
function parameters; every claim below is about how the script combines
them, which is exactly what the source file determines.
-/

namespace BoltzmannTrain

/-- The mean of a batch of scalars, as `torch.mean` over a 1-D tensor
(sum divided by length). -/
def mean (xs : List ℚ) : ℚ := xs.sum / xs.length

/-- Sum of squared components of a vector, as `torch.sum(z ** 2, dim=1)`
for one batch row. -/
def sumSq (v : List ℚ) : ℚ := (v.map (fun a => a * a)).sum

/-- `torch.min` over a batch of scalars (undefined on the empty tensor in
torch; we return 0 there, a case no claim exercises). -/
def torchMin (xs : List ℚ) : ℚ :=
  match xs with
  | [] => 0
  | x :: rest => rest.foldl min x

/-- `torch.median` over a batch of scalars: the lower median, i.e. the
element at index `(n-1)/2` of the sorted values. -/
def torchMedian (xs : List ℚ) : ℚ :=
  (xs.mergeSort (fun a b => decide (a ≤ b))).getD ((xs.length - 1) / 2) 0

/-- The configuration surface of `train.py` (`argparse` namespace), limited
to the fields the training loop and the `__main__` gates read. -/
structure Args where
  pdbPath : String
  dcdPath : String
  outputName : String
  overwrite : Bool
  epochs : ℕ
  batchSize : ℕ
  logFreq : ℕ
  foldValidation : ℚ
  trainExample : Bool
  trainEnergy : Bool
  exampleWeight : ℚ
  energyWeight : ℚ
  temperature : ℚ
  energyMax : ℚ
  energyHigh : ℚ
  deriving DecidableEq

/-- The composite normalizing-flow network: `forward` maps a conformation
to a latent vector plus forward log-determinant, `inverse` maps a latent
vector to a conformation plus inverse log-determinant.  Built by
`build_network` from external library transforms; the training script
only calls these two methods. -/
structure Network where
  forward : List ℚ → List ℚ × ℚ
  inverse : List ℚ → List ℚ × ℚ

/-- `get_energy_evaluator`: closes over the OpenMM context (represented by
the abstract per-sample oracle `openmm_energy`, already specialized to a
context), the temperature and the two regularization thresholds, and
returns the evaluator `x ↦ regularize_energy (openmm_energy x T) high max`.
`regularize_energy` lives in the external `boltzmann.protein` module and is
therefore an abstract parameter here. -/
def get_energy_evaluator (openmm_energy : List ℚ → ℚ → ℚ)
    (regularize_energy : ℚ → ℚ → ℚ → ℚ)
    (temperature energy_high energy_max : ℚ) : List ℚ → ℚ :=
  fun x => regularize_energy (openmm_energy x temperature) energy_high energy_max

/-- The random draws one epoch of the loop consumes, in program order:
the training index batch (`np.random.choice`), the energy latent batch
(`torch.normal`), the validation index batch and the validation latent
batch. -/
structure EpochRandom where
  indexBatch : List ℕ
  zBatch : List (List ℚ)
  indexVal : List ℕ
  zVal : List (List ℚ)

/-- Lines 274-281: the example (maximum-likelihood) loss of one batch,
`example_weight * (0.5 * mean(sum(z^2, dim=1)) - mean(z_jac))` where
`(z, z_jac) = net.forward(train_data[index_batch])`. -/
def example_loss_of (args : Args) (net : Network)
    (trainData : List (List ℚ)) (indexBatch : List ℕ) : ℚ :=
  let xBatch := indexBatch.map (fun i => trainData.getD i [])
  let pairs := xBatch.map net.forward
  args.exampleWeight *
    ((1 / 2) * mean (pairs.map (fun p => sumSq p.1)) - mean (pairs.map Prod.snd))

/-- Lines 283-290: the energy loss of one batch,
`energy_weight * (mean(energies) - mean(x_jac))` where
`(x, x_jac) = net.inverse(z_batch)` and `energies = energy_evaluator(x)`. -/
def energy_loss_of (args : Args) (net : Network)
    (energy_evaluator : List ℚ → ℚ) (zBatch : List (List ℚ)) : ℚ :=
  let pairs := zBatch.map net.inverse
  args.energyWeight *
    (mean (pairs.map (fun p => energy_evaluator p.1)) - mean (pairs.map Prod.snd))

/-- Lines 292-297: the combined loss.  A `none` operand models a Python
local that was never assigned (reading it raises `NameError`), so the
result is `none` when neither objective is enabled. -/
def combinedLoss (args : Args) (exL enL : Option ℚ) : Option ℚ :=
  if args.trainExample && args.trainEnergy then
    match exL, enL with
    | some a, some b => some (a + b)
    | _, _ => none
  else if args.trainExample then exL
  else enL

/-- One `writer.add_scalar(tag, value, epoch)` call.  `noGrad` records
whether the call happened inside the `with torch.no_grad():` block. -/
structure ScalarEvent where
  tag : String
  value : ℚ
  epoch : ℕ
  noGrad : Bool
  deriving DecidableEq

/-- The mutable Python locals of `run_training` that the loop body writes
and later phases read.  `none` models a local that has not been assigned
yet (reading it raises `NameError`).  `trainData` and `valData` are
assigned once before the loop; `events` accumulates the tensorboard
scalar writes. -/
structure LoopState where
  trainData : List (List ℚ)
  valData : List (List ℚ)
  loss : Option ℚ
  example_loss : Option ℚ
  energy_loss : Option ℚ
  loss_val : Option ℚ
  example_loss_val : Option ℚ
  energy_loss_val : Option ℚ
  fixed_energy : Option ℚ
  fixedCoords : List (List ℚ)
  events : List ScalarEvent

/-- Lines 303-373: the validate-and-log pass, executed when
`epoch % log_freq == 0`.  Training losses are logged first (outside
`no_grad`), then both validation losses are recomputed on the validation
split inside `no_grad`, energy statistics are logged, the fixed latent
vector is decoded and its raw (unregularized) OpenMM energy recorded, and
the decoded coordinates are appended to `fixed_coords`. -/
def logPass (args : Args) (net : Network) (energy_evaluator : List ℚ → ℚ)
    (openmm_energy : List ℚ → ℚ → ℚ) (fixed_z : List ℚ)
    (r : EpochRandom) (epoch : ℕ) (s : LoopState)
    (exL enL : Option ℚ) (loss : ℚ) : LoopState :=
  let trainEvents : List ScalarEvent :=
    [⟨"Train/loss", loss, epoch, false⟩] ++
    (match exL with
     | some v => [⟨"Train/example", v, epoch, false⟩]
     | none => []) ++
    (match enL with
     | some v => [⟨"Train/energy", v, epoch, false⟩]
     | none => [])
  let x_val := r.indexVal.map (fun i => s.valData.getD i [])
  let valPairs := x_val.map net.forward
  let example_loss_val := args.exampleWeight *
    ((1 / 2) * mean (valPairs.map (fun p => sumSq p.1)) -
      mean (valPairs.map Prod.snd))
  let xPairs := r.zVal.map net.inverse
  let val_energies := xPairs.map (fun p => energy_evaluator p.1)
  let energy_loss_val := args.energyWeight *
    (mean val_energies - mean (xPairs.map Prod.snd))
  let loss_val :=
    if args.trainExample && args.trainEnergy then example_loss_val + energy_loss_val
    else if args.trainExample then example_loss_val
    else energy_loss_val
  let fixedPair := net.inverse fixed_z
  let fixed_energy := mean [openmm_energy fixedPair.1 args.temperature]
  let valEvents : List ScalarEvent :=
    [⟨"Validation/loss", loss_val, epoch, true⟩,
     ⟨"Validation/example", example_loss_val, epoch, true⟩,
     ⟨"Validation/energy", energy_loss_val, epoch, true⟩,
     ⟨"Energies/mean_energy", mean val_energies, epoch, true⟩,
     ⟨"Energies/median_energy", torchMedian val_energies, epoch, true⟩,
     ⟨"Energies/minimum_energy", torchMin val_energies, epoch, true⟩,
     ⟨"Energies/fixed_energy", fixed_energy, epoch, true⟩]
  { s with
    loss := some loss
    example_loss := exL
    energy_loss := enL
    loss_val := some loss_val
    example_loss_val := some example_loss_val
    energy_loss_val := some energy_loss_val
    fixed_energy := some fixed_energy
    fixedCoords := s.fixedCoords ++ [fixedPair.1]
    events := s.events ++ trainEvents ++ valEvents }

/-- Lines 270-373: one iteration of the training loop.  Computes the
enabled per-objective losses, the combined loss (`none` propagates the
`NameError` of an unassigned local), then runs the validate-and-log pass
when `epoch % log_freq == 0`.  `log_freq = 0` makes `epoch % log_freq`
raise `ZeroDivisionError` in Python, hence `none`. -/
def epochStep (args : Args) (net : Network) (energy_evaluator : List ℚ → ℚ)
    (openmm_energy : List ℚ → ℚ → ℚ) (fixed_z : List ℚ)
    (r : EpochRandom) (epoch : ℕ) (s : LoopState) : Option LoopState :=
  let exL := if args.trainExample then
    some (example_loss_of args net s.trainData r.indexBatch) else none
  let enL := if args.trainEnergy then
    some (energy_loss_of args net energy_evaluator r.zBatch) else none
  match combinedLoss args exL enL with
  | none => none
  | some loss =>
    if args.logFreq = 0 then none
    else if epoch % args.logFreq = 0 then
      some (logPass args net energy_evaluator openmm_energy fixed_z r epoch s exL enL loss)
    else
      some { s with loss := some loss, example_loss := exL, energy_loss := enL }

/-- Runs epochs `0, 1, ..., count-1` in order (the recursive call handles
the first `count-1` epochs, then epoch `count-1` is stepped). -/
def runEpochs (args : Args) (net : Network) (energy_evaluator : List ℚ → ℚ)
    (openmm_energy : List ℚ → ℚ → ℚ) (fixed_z : List ℚ)
    (randoms : ℕ → EpochRandom) : ℕ → LoopState → Option LoopState
  | 0, s => some s
  | Nat.succ k, s =>
    (runEpochs args net energy_evaluator openmm_energy fixed_z randoms k s).bind
      (epochStep args net energy_evaluator openmm_energy fixed_z (randoms k) k)

/-- Lines 253-262: the data split.  `n_val = int(n / fold_validation)`
(Python `int()` truncates toward zero), validation is the slice
`[:n_val]` of the shuffled data and training the slice `[n_val:]`. -/
def pyInt (q : ℚ) : ℤ := if 0 ≤ q then ⌊q⌋ else ⌈q⌉

/-- `n_val = int(n / args.fold_validation)` as a natural slice bound. -/
def n_val_of (n : ℕ) (fold_validation : ℚ) : ℕ :=
  (pyInt ((n : ℚ) / fold_validation)).toNat

/-- `val_data = shuffled[:n_val]`, `train_data = shuffled[n_val:]`. -/
def splitData (shuffled : List (List ℚ)) (nv : ℕ) :
    List (List ℚ) × List (List ℚ) :=
  (shuffled.take nv, shuffled.drop nv)

/-- The loop state as it stands at line 269, before the first epoch. -/
def init_state (trainData valData : List (List ℚ)) : LoopState :=
  { trainData := trainData
    valData := valData
    loss := none
    example_loss := none
    energy_loss := none
    loss_val := none
    example_loss_val := none
    energy_loss_val := none
    fixed_energy := none
    fixedCoords := []
    events := [] }

/-- An observable effect of the finalizing phase (lines 375-404). -/
inductive FinalEffect where
  | saveModel (path : String)
  | printLine (tag : String) (value : ℚ)
  | saveTrainingTraj (path : String) (frames : List (List ℚ))
  | saveSampleTraj (path : String) (frames : List (List ℚ))
  deriving DecidableEq

/-- Lines 379-387: the final console prints.  Each read of a loop local
fails (`NameError`) when that local was never assigned, so the whole
sequence is `none` exactly when some read local is unassigned. -/
def finalPrints (args : Args) (s : LoopState) : Option (List FinalEffect) := do
  let l ← s.loss
  let exP ← if args.trainExample then do
      let v ← s.example_loss
      pure [FinalEffect.printLine "Final example loss:" v]
    else pure []
  let enP ← if args.trainEnergy then do
      let v ← s.energy_loss
      pure [FinalEffect.printLine "Final energy loss:" v]
    else pure []
  let lv ← s.loss_val
  let elv ← s.example_loss_val
  let env ← s.energy_loss_val
  let fe ← s.fixed_energy
  pure ([FinalEffect.printLine "Final loss:" l] ++ exP ++ enP ++
    [FinalEffect.printLine "Final validation loss:" lv,
     FinalEffect.printLine "Final validation example loss:" elv,
     FinalEffect.printLine "Final validation energy loss:" env,
     FinalEffect.printLine "Final fixed energy loss:" fe])

/-- Lines 375-404: the finalizing phase.  The model is saved first
(line 376); then the final prints run, and if any read local is
unassigned the run dies there with the model already on disk; otherwise
the fixed-coordinate trajectory and a freshly sampled batch are saved.
Returns the effects performed and whether the phase completed. -/
def finalize (args : Args) (net : Network) (zSample : List (List ℚ))
    (s : LoopState) : List FinalEffect × Bool :=
  let save := FinalEffect.saveModel ("models/" ++ args.outputName ++ ".pkl")
  match finalPrints args s with
  | none => ([save], false)
  | some ps =>
    ([save] ++ ps ++
      [FinalEffect.saveTrainingTraj ("training_traj/" ++ args.outputName ++ ".pdb")
        s.fixedCoords,
       FinalEffect.saveSampleTraj ("sample_traj/" ++ args.outputName ++ ".pdb")
        ((zSample.map net.inverse).map Prod.fst)],
     true)

/-- `run_training` from the loop onward: run all epochs from the freshly
split data, then finalize.  An epoch that raises aborts the run with no
finalizing effects. -/
def run_training (args : Args) (net : Network) (energy_evaluator : List ℚ → ℚ)
    (openmm_energy : List ℚ → ℚ → ℚ) (fixed_z : List ℚ)
    (randoms : ℕ → EpochRandom) (zSample : List (List ℚ))
    (trainData valData : List (List ℚ)) : List FinalEffect × Bool :=
  match runEpochs args net energy_evaluator openmm_energy fixed_z randoms
      args.epochs (init_state trainData valData) with
  | none => ([], false)
  | some s => finalize args net zSample s

/-- The trajectory object returned by `load_trajectory`, reduced to its
provenance: which dcd file and which topology file were loaded, and that
the frames were superposed on the backbone selection. -/
structure Trajectory where
  dcdSource : String
  topSource : String
  superposed : Bool
  deriving DecidableEq

/-- Lines 48-53: `load_trajectory(pdb_path, dcd_path)` calls
`md.load(args.dcd_path, top=args.pdb_path)` — the module-level `args`,
not its own parameters — then superposes on the backbone selection. -/
def load_trajectory (args : Args) (pdb_path dcd_path : String) : Trajectory :=
  { dcdSource := args.dcdPath
    topSource := args.pdbPath
    superposed := true }

/-- A filesystem effect of the `__main__` block before training starts. -/
inductive MainEffect where
  | checkExists (path : String)
  | removeFile (path : String)
  | removeTree (path : String)
  | makeDir (path : String)
  | runTrainingStarted
  deriving DecidableEq

/-- Lines 27-35: `delete_run(name)` — four existence checks, each
followed by a removal when the path exists.  `fs` is the abstract
filesystem (path existence predicate). -/
def delete_run (fs : String → Bool) (name : String) : List MainEffect :=
  (MainEffect.checkExists ("models/" ++ name ++ ".pkl") ::
    (if fs ("models/" ++ name ++ ".pkl") then
      [MainEffect.removeFile ("models/" ++ name ++ ".pkl")] else [])) ++
  (MainEffect.checkExists ("training_traj/" ++ name ++ ".pdb") ::
    (if fs ("training_traj/" ++ name ++ ".pdb") then
      [MainEffect.removeFile ("training_traj/" ++ name ++ ".pdb")] else [])) ++
  (MainEffect.checkExists ("sample_traj/" ++ name ++ ".pdb") ::
    (if fs ("sample_traj/" ++ name ++ ".pdb") then
      [MainEffect.removeFile ("sample_traj/" ++ name ++ ".pdb")] else [])) ++
  (MainEffect.checkExists ("runs/" ++ name) ::
    (if fs ("runs/" ++ name) then
      [MainEffect.removeTree ("runs/" ++ name)] else []))

/-- Lines 38-41: `create_dirs()`. -/
def create_dirs : List MainEffect :=
  [MainEffect.makeDir "models", MainEffect.makeDir "training_traj",
   MainEffect.makeDir "sample_traj"]

/-- Lines 571-592: the `__main__` block after argument parsing.  Returns
the filesystem effects performed in order, and `some message` when a
`RuntimeError` was raised (all later effects skipped).  The
objectives gate runs before any filesystem access; the overwrite gate
performs one read-only existence check before raising. -/
def main_gate (fs : String → Bool) (args : Args) :
    List MainEffect × Option String :=
  if !(args.trainExample || args.trainEnergy) then
    ([], some "You must specify at least one of train_example or train_energy.")
  else
    let model_path := "models/" ++ args.outputName ++ ".pkl"
    if fs model_path && !args.overwrite then
      ([MainEffect.checkExists model_path],
       some ("Output already exists. If you're sure use --overwrite."))
    else
      ([MainEffect.checkExists model_path] ++ delete_run fs args.outputName ++
        create_dirs ++ [MainEffect.runTrainingStarted], none)

/-- One evaluation of the example loss from a seeded draw: the program's
only source of randomness for this loss is the index batch produced by
the seeded generator (`np.random.choice` after seeding). -/
def example_loss_eval (args : Args) (net : Network)
    (trainData : List (List ℚ)) (draws : ℕ → EpochRandom) (seed : ℕ) : ℚ :=
  example_loss_of args net trainData (draws seed).indexBatch

/-- One evaluation of the energy loss from a seeded draw: the only source
of randomness for this loss is the latent batch produced by the seeded
generator (`torch.normal` after seeding). -/
def energy_loss_eval (args : Args) (net : Network)
    (energy_evaluator : List ℚ → ℚ) (draws : ℕ → EpochRandom) (seed : ℕ) : ℚ :=
  energy_loss_of args net energy_evaluator (draws seed).zBatch

/-! ## Shared fixtures for concrete witnesses -/

/-- An identity flow with zero log-determinant, used as a concrete probe. -/
def probeNet : Network := { forward := fun x => (x, 0), inverse := fun z => (z, 0) }

/-- A small concrete configuration used as a concrete probe. -/
def probeArgs : Args :=
  { pdbPath := "protein.pdb", dcdPath := "traj.dcd", outputName := "run1",
    overwrite := false, epochs := 1, batchSize := 1, logFreq := 1,
    foldValidation := 10, trainExample := true, trainEnergy := true,
    exampleWeight := 1, energyWeight := 1, temperature := 298,
    energyMax := 100, energyHigh := 10 }

/-- Concrete random draws for one probe epoch. -/
def probeRandom : EpochRandom :=
  { indexBatch := [0], zBatch := [[1]], indexVal := [0], zVal := [[2]] }

/-- A concrete energy evaluator probe. -/
def probeEval : List ℚ → ℚ := fun x => x.sum

/-- A concrete raw-oracle probe. -/
def probeOracle : List ℚ → ℚ → ℚ := fun x _ => x.sum

/-! ## Helper lemmas about the epoch step -/

/-- Anatomy of a successful epoch step: the log frequency is nonzero, the
combined loss was defined, and the result state is the validate-and-log
state or the plain train-step state according to `epoch % log_freq`. -/
lemma epochStep_cases (args : Args) (net : Network) (ee : List ℚ → ℚ)
    (oe : List ℚ → ℚ → ℚ) (fz : List ℚ) (r : EpochRandom) (epoch : ℕ)
    (s s' : LoopState)
    (hstep : epochStep args net ee oe fz r epoch s = some s') :
    args.logFreq ≠ 0 ∧
    ∃ loss,
      combinedLoss args
        (if args.trainExample then
          some (example_loss_of args net s.trainData r.indexBatch) else none)
        (if args.trainEnergy then
          some (energy_loss_of args net ee r.zBatch) else none) = some loss ∧
      ((epoch % args.logFreq = 0 ∧
          s' = logPass args net ee oe fz r epoch s
            (if args.trainExample then
              some (example_loss_of args net s.trainData r.indexBatch) else none)
            (if args.trainEnergy then
              some (energy_loss_of args net ee r.zBatch) else none) loss) ∨
        (¬ epoch % args.logFreq = 0 ∧
          s' = { s with
                 loss := some loss
                 example_loss := (if args.trainExample then
                   some (example_loss_of args net s.trainData r.indexBatch) else none)
                 energy_loss := (if args.trainEnergy then
                   some (energy_loss_of args net ee r.zBatch) else none) })) := by
  simp only [epochStep] at hstep
  split at hstep
  · exact absurd hstep (by simp)
  · next loss heq =>
    split at hstep
    · exact absurd hstep (by simp)
    · next h0 =>
      split at hstep
      · next hm =>
        exact ⟨h0, loss, heq, Or.inl ⟨hm, (Option.some_inj.mp hstep).symm⟩⟩
      · next hm =>
        exact ⟨h0, loss, heq, Or.inr ⟨hm, (Option.some_inj.mp hstep).symm⟩⟩

/-! ## Claim theorems -/

/-- C9: `load_trajectory`'s result is independent of its declared
parameters; it always loads the dcd and topology recorded in the global
`args`, whatever paths are passed in. -/
theorem load_trajectory_ignores_parameters (g : Args) (p1 d1 p2 d2 : String) :
    load_trajectory g p1 d1 = load_trajectory g p2 d2 ∧
    (load_trajectory g p1 d1).dcdSource = g.dcdPath ∧
    (load_trajectory g p1 d1).topSource = g.pdbPath :=
  ⟨rfl, rfl, rfl⟩

/-- C10: the validation split is the first `int(n / fold_validation)` rows
of the shuffled data, the training split is the remaining rows, the two
concatenate back to the whole shuffled dataset (hence disjoint index
ranges covering all frames), and every successful epoch step leaves both
splits untouched, so the partition is an invariant of the run. -/
theorem split_partitions_shuffled_data (shuffled : List (List ℚ)) (fv : ℚ)
    (hfv : 0 < fv) :
    n_val_of shuffled.length fv = Int.toNat ⌊(shuffled.length : ℚ) / fv⌋ ∧
    (splitData shuffled (n_val_of shuffled.length fv)).1 =
      shuffled.take (n_val_of shuffled.length fv) ∧
    (splitData shuffled (n_val_of shuffled.length fv)).2 =
      shuffled.drop (n_val_of shuffled.length fv) ∧
    (splitData shuffled (n_val_of shuffled.length fv)).1 ++
      (splitData shuffled (n_val_of shuffled.length fv)).2 = shuffled ∧
    (splitData shuffled (n_val_of shuffled.length fv)).1.length +
      (splitData shuffled (n_val_of shuffled.length fv)).2.length =
      shuffled.length ∧
    (∀ i, i < (splitData shuffled (n_val_of shuffled.length fv)).1.length →
      (splitData shuffled (n_val_of shuffled.length fv)).1.getD i [] =
        shuffled.getD i []) ∧
    (∀ j, (splitData shuffled (n_val_of shuffled.length fv)).2.getD j [] =
      shuffled.getD (n_val_of shuffled.length fv + j) []) ∧
    (∀ (args : Args) (net : Network) (ee : List ℚ → ℚ)
        (oe : List ℚ → ℚ → ℚ) (fz : List ℚ) (r : EpochRandom) (epoch : ℕ)
        (s s' : LoopState), epochStep args net ee oe fz r epoch s = some s' →
      s'.trainData = s.trainData ∧ s'.valData = s.valData) := by
  refine ⟨?_, rfl, rfl, List.take_append_drop _ _, ?_, ?_, ?_, ?_⟩
  · have hq : (0 : ℚ) ≤ (shuffled.length : ℚ) / fv :=
      div_nonneg (by positivity) hfv.le
    simp [n_val_of, pyInt, hq]
  · simp [splitData]
    omega
  · intro i hi
    simp [splitData] at hi ⊢
    simp only [List.getD_eq_getElem?_getD, List.getElem?_take, hi.1, if_true]
  · intro j
    simp only [splitData, List.getD_eq_getElem?_getD, List.getElem?_drop]
  · intro args net ee oe fz r epoch s s' hstep
    obtain ⟨-, loss, -, hcase⟩ :=
      epochStep_cases args net ee oe fz r epoch s s' hstep
    rcases hcase with ⟨-, rfl⟩ | ⟨-, rfl⟩
    · exact ⟨rfl, rfl⟩
    · exact ⟨rfl, rfl⟩

/-- C10 witness: the theorem evaluated on a concrete three-frame dataset
with `fold_validation = 3/2` (validation gets the first two rows). -/
theorem split_partitions_shuffled_data_witness :
    (0 : ℚ) < 3 / 2 ∧
    (splitData [[1], [2], [3]]
        (n_val_of ([[1], [2], [3]] : List (List ℚ)).length (3 / 2))).1 ++
      (splitData [[1], [2], [3]]
        (n_val_of ([[1], [2], [3]] : List (List ℚ)).length (3 / 2))).2 =
      [[1], [2], [3]] :=
  ⟨by norm_num,
   (split_partitions_shuffled_data [[1], [2], [3]] (3 / 2) (by norm_num)).2.2.2.1⟩

/-- C4: with both objectives disabled, the `__main__` block raises before
touching the filesystem: the effect trace is empty (no existence check,
no deletion, no directory creation, no training) and the error is
raised. -/
theorem objectives_gate_before_any_io (fs : String → Bool) (args : Args)
    (h1 : args.trainExample = false) (h2 : args.trainEnergy = false) :
    (main_gate fs args).1 = [] ∧ (main_gate fs args).2.isSome = true := by
  simp [main_gate, h1, h2]

/-- C4 witness: the gate evaluated on a concrete configuration with both
objectives off, over a filesystem where every path exists. -/
theorem objectives_gate_before_any_io_witness :
    ({ probeArgs with trainExample := false, trainEnergy := false }).trainExample
        = false ∧
    ({ probeArgs with trainExample := false, trainEnergy := false }).trainEnergy
        = false ∧
    ((main_gate (fun _ => true)
        { probeArgs with trainExample := false, trainEnergy := false }).1 = [] ∧
      (main_gate (fun _ => true)
        { probeArgs with trainExample := false, trainEnergy := false }).2.isSome
        = true) :=
  ⟨rfl, rfl,
   objectives_gate_before_any_io (fun _ => true)
     { probeArgs with trainExample := false, trainEnergy := false } rfl rfl⟩

/-- C5: when the output model artifact exists and `--overwrite` was not
given, the `__main__` block raises; the only filesystem effects performed
are read-only existence checks — nothing is removed, no directory is
created, and training never starts. -/
theorem overwrite_gate_no_partial_state (fs : String → Bool) (args : Args)
    (hex : fs ("models/" ++ args.outputName ++ ".pkl") = true)
    (hov : args.overwrite = false) :
    (main_gate fs args).2.isSome = true ∧
    ∀ e ∈ (main_gate fs args).1, ∃ p, e = MainEffect.checkExists p := by
  by_cases hb : (args.trainExample || args.trainEnergy) = true
  · constructor
    · simp [main_gate, hb, hex, hov]
    · intro e he
      simp [main_gate, hb, hex, hov] at he
      exact ⟨_, he⟩
  · constructor
    · simp [main_gate, hb]
    · intro e he
      simp [main_gate, hb] at he

/-- C5 witness: the gate evaluated on the probe configuration (overwrite
off) over a filesystem where the model artifact exists. -/
theorem overwrite_gate_no_partial_state_witness :
    (fun _ => true) ("models/" ++ probeArgs.outputName ++ ".pkl") = true ∧
    probeArgs.overwrite = false ∧
    ((main_gate (fun _ => true) probeArgs).2.isSome = true ∧
      ∀ e ∈ (main_gate (fun _ => true) probeArgs).1,
        ∃ p, e = MainEffect.checkExists p) :=
  ⟨rfl, rfl, overwrite_gate_no_partial_state (fun _ => true) probeArgs rfl rfl⟩

/-- The example-loss and energy-loss fields a successful epoch step
assigns, plus the combined loss relation — shared by C1, C2 and C3. -/
lemma epochStep_loss_fields (args : Args) (net : Network) (ee : List ℚ → ℚ)
    (oe : List ℚ → ℚ → ℚ) (fz : List ℚ) (r : EpochRandom) (epoch : ℕ)
    (s s' : LoopState)
    (hstep : epochStep args net ee oe fz r epoch s = some s') :
    s'.example_loss = (if args.trainExample then
      some (example_loss_of args net s.trainData r.indexBatch) else none) ∧
    s'.energy_loss = (if args.trainEnergy then
      some (energy_loss_of args net ee r.zBatch) else none) ∧
    s'.loss = combinedLoss args s'.example_loss s'.energy_loss := by
  obtain ⟨-, loss, hcl, hcase⟩ :=
    epochStep_cases args net ee oe fz r epoch s s' hstep
  rcases hcase with ⟨-, rfl⟩ | ⟨-, rfl⟩
  · exact ⟨rfl, rfl, by simp [logPass, hcl]⟩
  · exact ⟨rfl, rfl, by simp [hcl]⟩

/-- C1: whenever the example objective is enabled, the step's example
loss equals the configured example weight times
`0.5 * mean(sum(z^2)) - mean(z_jac)` where `(z, z_jac)` is `forward`
applied row-wise to the sampled training batch
`train_data[index_batch]`. -/
theorem example_loss_formula (args : Args) (net : Network) (ee : List ℚ → ℚ)
    (oe : List ℚ → ℚ → ℚ) (fz : List ℚ) (r : EpochRandom) (epoch : ℕ)
    (s s' : LoopState)
    (hex : args.trainExample = true)
    (hstep : epochStep args net ee oe fz r epoch s = some s') :
    s'.example_loss = some (args.exampleWeight *
      ((1 / 2) * mean ((r.indexBatch.map (fun i => s.trainData.getD i [])).map
          (fun x => sumSq (net.forward x).1)) -
        mean ((r.indexBatch.map (fun i => s.trainData.getD i [])).map
          (fun x => (net.forward x).2)))) := by
  obtain ⟨h1, -, -⟩ :=
    epochStep_loss_fields args net ee oe fz r epoch s s' hstep
  rw [h1, if_pos hex]
  simp [example_loss_of, List.map_map, Function.comp_def]

/-- C1 witness: a concrete epoch step with the example objective on; the
sampled batch is the single row `[3]`, the identity flow gives
`z = [3]`, `z_jac = 0`, so the example loss is `1 * (9/2 - 0)`. -/
theorem example_loss_formula_witness :
    probeArgs.trainExample = true ∧
    ∃ s', epochStep probeArgs probeNet probeEval probeOracle [5] probeRandom 0
        (init_state [[3]] [[4]]) = some s' ∧
      s'.example_loss = some (probeArgs.exampleWeight *
        ((1 / 2) * mean ((probeRandom.indexBatch.map
            (fun i => (init_state [[3]] [[4]]).trainData.getD i [])).map
            (fun x => sumSq (probeNet.forward x).1)) -
          mean ((probeRandom.indexBatch.map
            (fun i => (init_state [[3]] [[4]]).trainData.getD i [])).map
            (fun x => (probeNet.forward x).2)))) := by
  refine ⟨rfl, ?_⟩
  have hs : (epochStep probeArgs probeNet probeEval probeOracle [5] probeRandom 0
      (init_state [[3]] [[4]])).isSome = true := by decide
  obtain ⟨s', h⟩ := Option.isSome_iff_exists.mp hs
  exact ⟨s', h, example_loss_formula probeArgs probeNet probeEval probeOracle
    [5] probeRandom 0 (init_state [[3]] [[4]]) s' rfl h⟩

/-- C2: whenever the energy objective is enabled and the energy evaluator
is the one `get_energy_evaluator` builds, the step's energy loss equals
the configured energy weight times `mean(energies) - mean(x_jac)`, where
`(x, x_jac)` is `inverse` applied row-wise to the latent batch and every
energy entering the mean is `regularize_energy` applied to the raw oracle
energy with the configured thresholds. -/
theorem energy_loss_uses_regularized_energies (args : Args) (net : Network)
    (oe : List ℚ → ℚ → ℚ) (reg : ℚ → ℚ → ℚ → ℚ) (fz : List ℚ)
    (r : EpochRandom) (epoch : ℕ) (s s' : LoopState)
    (hen : args.trainEnergy = true)
    (hstep : epochStep args net
      (get_energy_evaluator oe reg args.temperature args.energyHigh args.energyMax)
      oe fz r epoch s = some s') :
    s'.energy_loss = some (args.energyWeight *
      (mean (r.zBatch.map (fun z =>
          reg (oe (net.inverse z).1 args.temperature)
            args.energyHigh args.energyMax)) -
        mean (r.zBatch.map (fun z => (net.inverse z).2)))) := by
  obtain ⟨-, h2, -⟩ := epochStep_loss_fields args net
    (get_energy_evaluator oe reg args.temperature args.energyHigh args.energyMax)
    oe fz r epoch s s' hstep
  rw [h2, if_pos hen]
  simp [energy_loss_of, get_energy_evaluator, List.map_map, Function.comp_def]

/-- C2 witness: a concrete epoch step with the energy objective on and a
concrete regularizer `min e max` composed with the sum-of-coordinates
oracle. -/
theorem energy_loss_uses_regularized_energies_witness :
    probeArgs.trainEnergy = true ∧
    ∃ s', epochStep probeArgs probeNet
        (get_energy_evaluator probeOracle (fun e _ m => min e m)
          probeArgs.temperature probeArgs.energyHigh probeArgs.energyMax)
        probeOracle [5] probeRandom 0 (init_state [[3]] [[4]]) = some s' ∧
      s'.energy_loss = some (probeArgs.energyWeight *
        (mean (probeRandom.zBatch.map (fun z =>
            (fun e _ m => min e m) (probeOracle (probeNet.inverse z).1
              probeArgs.temperature) probeArgs.energyHigh probeArgs.energyMax)) -
          mean (probeRandom.zBatch.map (fun z => (probeNet.inverse z).2)))) := by
  refine ⟨rfl, ?_⟩
  have hs : (epochStep probeArgs probeNet
      (get_energy_evaluator probeOracle (fun e _ m => min e m)
        probeArgs.temperature probeArgs.energyHigh probeArgs.energyMax)
      probeOracle [5] probeRandom 0 (init_state [[3]] [[4]])).isSome = true := by
    decide
  obtain ⟨s', h⟩ := Option.isSome_iff_exists.mp hs
  exact ⟨s', h, energy_loss_uses_regularized_energies probeArgs probeNet
    probeOracle (fun e _ m => min e m) [5] probeRandom 0
    (init_state [[3]] [[4]]) s' rfl h⟩

/-- C3: the loss handed to `backward` is the sum of exactly the enabled
weighted objective losses: both when both objectives are enabled, the
example loss alone when only the example objective is enabled, and the
energy loss alone when only the energy objective is enabled. -/
theorem combined_loss_sums_enabled (args : Args) (net : Network)
    (ee : List ℚ → ℚ) (oe : List ℚ → ℚ → ℚ) (fz : List ℚ) (r : EpochRandom)
    (epoch : ℕ) (s s' : LoopState)
    (hstep : epochStep args net ee oe fz r epoch s = some s') :
    (args.trainExample = true → args.trainEnergy = true →
      s'.loss = some (example_loss_of args net s.trainData r.indexBatch +
        energy_loss_of args net ee r.zBatch)) ∧
    (args.trainExample = true → args.trainEnergy = false →
      s'.loss = some (example_loss_of args net s.trainData r.indexBatch)) ∧
    (args.trainExample = false → args.trainEnergy = true →
      s'.loss = some (energy_loss_of args net ee r.zBatch)) := by
  obtain ⟨h1, h2, h3⟩ :=
    epochStep_loss_fields args net ee oe fz r epoch s s' hstep
  refine ⟨?_, ?_, ?_⟩ <;> intro ha hb <;>
    simp [h3, h1, h2, combinedLoss, ha, hb]

/-- C3 witness: a concrete epoch step with both objectives enabled; the
combined loss is the sum of the two per-objective losses. -/
theorem combined_loss_sums_enabled_witness :
    ∃ s', epochStep probeArgs probeNet probeEval probeOracle [5] probeRandom 0
        (init_state [[3]] [[4]]) = some s' ∧
      (probeArgs.trainExample = true → probeArgs.trainEnergy = true →
        s'.loss = some (example_loss_of probeArgs probeNet
            (init_state [[3]] [[4]]).trainData probeRandom.indexBatch +
          energy_loss_of probeArgs probeNet probeEval probeRandom.zBatch)) := by
  have hs : (epochStep probeArgs probeNet probeEval probeOracle [5] probeRandom 0
      (init_state [[3]] [[4]])).isSome = true := by decide
  obtain ⟨s', h⟩ := Option.isSome_iff_exists.mp hs
  exact ⟨s', h, (combined_loss_sums_enabled probeArgs probeNet probeEval
    probeOracle [5] probeRandom 0 (init_state [[3]] [[4]]) s' h).1⟩

/-- C7: loss-computation determinism.  With the same seed (hence the same
draws), the same batch data, the same network parameters and the same
energy evaluator, two evaluations of the example loss agree exactly, and
so do two evaluations of the energy loss; over `ℚ` the equality is exact,
which is within any floating-point tolerance. -/
theorem loss_computation_determinism (args : Args) (net : Network)
    (ee : List ℚ → ℚ) (trainData : List (List ℚ)) (draws : ℕ → EpochRandom)
    (seed1 seed2 : ℕ) (h : seed1 = seed2) :
    example_loss_eval args net trainData draws seed1 =
      example_loss_eval args net trainData draws seed2 ∧
    energy_loss_eval args net ee draws seed1 =
      energy_loss_eval args net ee draws seed2 := by
  subst h
  exact ⟨rfl, rfl⟩

/-- C7 witness: two evaluations at the concrete seed 0 on the probe
network and data. -/
theorem loss_computation_determinism_witness :
    (0 : ℕ) = 0 ∧
    (example_loss_eval probeArgs probeNet [[3]] (fun _ => probeRandom) 0 =
        example_loss_eval probeArgs probeNet [[3]] (fun _ => probeRandom) 0 ∧
      energy_loss_eval probeArgs probeNet probeEval (fun _ => probeRandom) 0 =
        energy_loss_eval probeArgs probeNet probeEval (fun _ => probeRandom) 0) :=
  ⟨rfl, loss_computation_determinism probeArgs probeNet probeEval [[3]]
    (fun _ => probeRandom) 0 0 rfl⟩

/-- C6: the validate-and-log pass runs exactly on the epochs divisible by
`log_freq`.  On such an epoch, both validation losses are recomputed on
the validation split whatever the objective flags say, the scalar metrics
(training loss, per-objective training losses when assigned, validation
losses, mean/median/minimum validation energy, and the fixed latent
vector's decoded energy) are appended to the writer — the validation
block inside `no_grad` — and the decoded fixed-latent coordinates are
appended to the diagnostic trajectory.  On any other epoch none of this
happens: no event is emitted, no validation field changes, and the
trajectory does not grow. -/
theorem validate_and_log_schedule (args : Args) (net : Network)
    (ee : List ℚ → ℚ) (oe : List ℚ → ℚ → ℚ) (fz : List ℚ) (r : EpochRandom)
    (epoch : ℕ) (s s' : LoopState)
    (hstep : epochStep args net ee oe fz r epoch s = some s') :
    (epoch % args.logFreq = 0 →
      ∃ trainLoss, s'.loss = some trainLoss ∧
        s'.example_loss_val = some (args.exampleWeight *
          ((1 / 2) * mean ((r.indexVal.map (fun i => s.valData.getD i [])).map
              (fun x => sumSq (net.forward x).1)) -
            mean ((r.indexVal.map (fun i => s.valData.getD i [])).map
              (fun x => (net.forward x).2)))) ∧
        s'.energy_loss_val = some (args.energyWeight *
          (mean (r.zVal.map (fun z => ee (net.inverse z).1)) -
            mean (r.zVal.map (fun z => (net.inverse z).2)))) ∧
        s'.fixed_energy =
          some (mean [oe (net.inverse fz).1 args.temperature]) ∧
        s'.fixedCoords = s.fixedCoords ++ [(net.inverse fz).1] ∧
        s'.events = s.events ++
          ([ScalarEvent.mk "Train/loss" trainLoss epoch false] ++
            (match s'.example_loss with
             | some v => [ScalarEvent.mk "Train/example" v epoch false]
             | none => []) ++
            (match s'.energy_loss with
             | some v => [ScalarEvent.mk "Train/energy" v epoch false]
             | none => [])) ++
          [ScalarEvent.mk "Validation/loss" ((s'.loss_val).getD 0) epoch true,
           ScalarEvent.mk "Validation/example"
             ((s'.example_loss_val).getD 0) epoch true,
           ScalarEvent.mk "Validation/energy"
             ((s'.energy_loss_val).getD 0) epoch true,
           ScalarEvent.mk "Energies/mean_energy"
             (mean (r.zVal.map (fun z => ee (net.inverse z).1))) epoch true,
           ScalarEvent.mk "Energies/median_energy"
             (torchMedian (r.zVal.map (fun z => ee (net.inverse z).1))) epoch true,
           ScalarEvent.mk "Energies/minimum_energy"
             (torchMin (r.zVal.map (fun z => ee (net.inverse z).1))) epoch true,
           ScalarEvent.mk "Energies/fixed_energy"
             ((s'.fixed_energy).getD 0) epoch true]) ∧
    (¬ epoch % args.logFreq = 0 →
      s'.events = s.events ∧ s'.fixedCoords = s.fixedCoords ∧
      s'.loss_val = s.loss_val ∧ s'.example_loss_val = s.example_loss_val ∧
      s'.energy_loss_val = s.energy_loss_val ∧
      s'.fixed_energy = s.fixed_energy) := by
  obtain ⟨-, loss, hcl, hcase⟩ :=
    epochStep_cases args net ee oe fz r epoch s s' hstep
  rcases hcase with ⟨hm, rfl⟩ | ⟨hm, rfl⟩
  · constructor
    · intro _
      refine ⟨loss, ?_, ?_, ?_, ?_, ?_, ?_⟩ <;>
        simp [logPass, List.map_map, Function.comp_def]
    · intro hcon
      exact absurd hm hcon
  · constructor
    · intro hmod
      exact absurd hmod hm
    · intro _
      exact ⟨rfl, rfl, rfl, rfl, rfl, rfl⟩

/-- C6 witness: at epoch 0 with `log_freq = 1` the pass fires: the energy
validation loss is recomputed and the decoded fixed latent vector is
appended to the trajectory. -/
theorem validate_and_log_schedule_witness :
    ∃ s', epochStep probeArgs probeNet probeEval probeOracle [5] probeRandom 0
        (init_state [[3]] [[4]]) = some s' ∧
      s'.energy_loss_val = some (probeArgs.energyWeight *
        (mean (probeRandom.zVal.map (fun z => probeEval (probeNet.inverse z).1)) -
          mean (probeRandom.zVal.map (fun z => (probeNet.inverse z).2)))) ∧
      s'.fixedCoords =
        (init_state [[3]] [[4]]).fixedCoords ++ [(probeNet.inverse [5]).1] := by
  have hs : (epochStep probeArgs probeNet probeEval probeOracle [5] probeRandom 0
      (init_state [[3]] [[4]])).isSome = true := by decide
  obtain ⟨s', h⟩ := Option.isSome_iff_exists.mp hs
  obtain ⟨hlog, -⟩ := validate_and_log_schedule probeArgs probeNet probeEval
    probeOracle [5] probeRandom 0 (init_state [[3]] [[4]]) s' h
  obtain ⟨-, -, -, hen, -, hfix, -⟩ := hlog (by decide)
  exact ⟨s', h, hen, hfix⟩

/-- When at least one objective is enabled, the combined loss of a step is
defined. -/
lemma combinedLoss_isSome_of_enabled (args : Args) (a b : ℚ)
    (hobj : args.trainExample = true ∨ args.trainEnergy = true) :
    (combinedLoss args (if args.trainExample then some a else none)
      (if args.trainEnergy then some b else none)).isSome = true := by
  cases hE : args.trainExample <;> cases hN : args.trainEnergy <;>
    simp_all [combinedLoss]

/-- When at least one objective is enabled and the log frequency is
nonzero, an epoch step never raises. -/
lemma epochStep_isSome (args : Args) (net : Network) (ee : List ℚ → ℚ)
    (oe : List ℚ → ℚ → ℚ) (fz : List ℚ) (r : EpochRandom) (epoch : ℕ)
    (s : LoopState)
    (hobj : args.trainExample = true ∨ args.trainEnergy = true)
    (hlf : args.logFreq ≠ 0) :
    (epochStep args net ee oe fz r epoch s).isSome = true := by
  simp only [epochStep]
  obtain ⟨l, hl⟩ := Option.isSome_iff_exists.mp
    (combinedLoss_isSome_of_enabled args
      (example_loss_of args net s.trainData r.indexBatch)
      (energy_loss_of args net ee r.zBatch) hobj)
  rw [hl]
  simp only [hlf, if_false]
  split <;> simp

/-- The definedness facts a successful epoch step establishes: the loss
locals the step assigns are defined, and the validation locals are defined
afterwards provided the pass fired this epoch or they were already
defined. -/
lemma epochStep_ready (args : Args) (net : Network) (ee : List ℚ → ℚ)
    (oe : List ℚ → ℚ → ℚ) (fz : List ℚ) (r : EpochRandom) (epoch : ℕ)
    (s s' : LoopState)
    (hstep : epochStep args net ee oe fz r epoch s = some s') :
    s'.loss.isSome = true ∧
    (args.trainExample = true → s'.example_loss.isSome = true) ∧
    (args.trainEnergy = true → s'.energy_loss.isSome = true) ∧
    ((epoch % args.logFreq = 0 ∨
        (s.loss_val.isSome = true ∧ s.example_loss_val.isSome = true ∧
          s.energy_loss_val.isSome = true ∧ s.fixed_energy.isSome = true ∧
          s.fixedCoords ≠ [])) →
      s'.loss_val.isSome = true ∧ s'.example_loss_val.isSome = true ∧
      s'.energy_loss_val.isSome = true ∧ s'.fixed_energy.isSome = true ∧
      s'.fixedCoords ≠ []) := by
  obtain ⟨-, loss, hcl, hcase⟩ :=
    epochStep_cases args net ee oe fz r epoch s s' hstep
  rcases hcase with ⟨hm, rfl⟩ | ⟨hm, rfl⟩
  · refine ⟨by simp [logPass], ?_, ?_, ?_⟩
    · intro hE; simp [logPass, hE]
    · intro hN; simp [logPass, hN]
    · intro _; simp [logPass]
  · refine ⟨by simp, ?_, ?_, ?_⟩
    · intro hE; simp [hE]
    · intro hN; simp [hN]
    · intro hpre
      rcases hpre with hmod | hready
      · exact absurd hmod hm
      · exact hready

/-- Running `n ≥ 1` epochs from the initial state succeeds (given the
configuration-time invariant and a nonzero log frequency) and leaves all
the locals the finalizing phase reads defined; epoch 0 always fires the
validate-and-log pass because `0 % log_freq = 0`. -/
lemma runEpochs_ready (args : Args) (net : Network) (ee : List ℚ → ℚ)
    (oe : List ℚ → ℚ → ℚ) (fz : List ℚ) (randoms : ℕ → EpochRandom)
    (hobj : args.trainExample = true ∨ args.trainEnergy = true)
    (hlf : args.logFreq ≠ 0) :
    ∀ n s0, ∃ s, runEpochs args net ee oe fz randoms n s0 = some s ∧
      (1 ≤ n →
        s.loss.isSome = true ∧
        (args.trainExample = true → s.example_loss.isSome = true) ∧
        (args.trainEnergy = true → s.energy_loss.isSome = true) ∧
        s.loss_val.isSome = true ∧ s.example_loss_val.isSome = true ∧
        s.energy_loss_val.isSome = true ∧ s.fixed_energy.isSome = true ∧
        s.fixedCoords ≠ []) := by
  intro n
  induction n with
  | zero =>
    intro s0
    exact ⟨s0, rfl, by omega⟩
  | succ k ih =>
    intro s0
    obtain ⟨s1, h1, hready1⟩ := ih s0
    obtain ⟨s2, h2⟩ := Option.isSome_iff_exists.mp
      (epochStep_isSome args net ee oe fz (randoms k) k s1 hobj hlf)
    refine ⟨s2, ?_, ?_⟩
    · simp [runEpochs, h1, h2]
    · intro _
      obtain ⟨hl, hex, hen, hval⟩ :=
        epochStep_ready args net ee oe fz (randoms k) k s1 s2 h2
      rcases Nat.eq_zero_or_pos k with hk | hk
      · subst hk
        obtain ⟨a, b, c, d, e⟩ := hval (Or.inl (Nat.zero_mod _))
        exact ⟨hl, hex, hen, a, b, c, d, e⟩
      · obtain ⟨-, -, -, v1, v2, v3, v4, v5⟩ := hready1 hk
        obtain ⟨a, b, c, d, e⟩ := hval (Or.inr ⟨v1, v2, v3, v4, v5⟩)
        exact ⟨hl, hex, hen, a, b, c, d, e⟩

/-- When every local the final prints read is defined, the finalizing
phase completes. -/
lemma finalize_success (args : Args) (net : Network)
    (zSample : List (List ℚ)) (s : LoopState)
    (h1 : s.loss.isSome = true)
    (h2 : args.trainExample = true → s.example_loss.isSome = true)
    (h3 : args.trainEnergy = true → s.energy_loss.isSome = true)
    (h4 : s.loss_val.isSome = true) (h5 : s.example_loss_val.isSome = true)
    (h6 : s.energy_loss_val.isSome = true)
    (h7 : s.fixed_energy.isSome = true) :
    (finalize args net zSample s).2 = true := by
  obtain ⟨l, hl⟩ := Option.isSome_iff_exists.mp h1
  obtain ⟨lv, hlv⟩ := Option.isSome_iff_exists.mp h4
  obtain ⟨elv, helv⟩ := Option.isSome_iff_exists.mp h5
  obtain ⟨env, henv⟩ := Option.isSome_iff_exists.mp h6
  obtain ⟨fe, hfe⟩ := Option.isSome_iff_exists.mp h7
  have hfp : (finalPrints args s).isSome = true := by
    cases hE : args.trainExample <;> cases hN : args.trainEnergy
    · simp [finalPrints, hl, hlv, helv, henv, hfe, hE, hN]
    · obtain ⟨en, hen⟩ := Option.isSome_iff_exists.mp (h3 (by rw [hN]))
      simp [finalPrints, hl, hlv, helv, henv, hfe, hen, hE, hN]
    · obtain ⟨ex, hex⟩ := Option.isSome_iff_exists.mp (h2 (by rw [hE]))
      simp [finalPrints, hl, hlv, helv, henv, hfe, hex, hE, hN]
    · obtain ⟨ex, hex⟩ := Option.isSome_iff_exists.mp (h2 (by rw [hE]))
      obtain ⟨en, hen⟩ := Option.isSome_iff_exists.mp (h3 (by rw [hN]))
      simp [finalPrints, hl, hlv, helv, henv, hfe, hex, hen, hE, hN]
  obtain ⟨ps, hps⟩ := Option.isSome_iff_exists.mp hfp
  simp [finalize, hps]

/-- C8: `run_training` needs `epochs ≥ 1` (with `log_freq ≥ 1`) for its
finalizing phase to be well-defined.  Under those preconditions the whole
run completes: every local the final prints read was assigned (epoch 0
always fires the validate-and-log pass since `0 % log_freq = 0`) and the
accumulated fixed-latent trajectory is nonempty.  With `epochs = 0` the
finalizing phase reads never-assigned locals: the model is saved and the
run then dies. -/
theorem finalizing_requires_first_epoch (args : Args) (net : Network)
    (ee : List ℚ → ℚ) (oe : List ℚ → ℚ → ℚ) (fz : List ℚ)
    (randoms : ℕ → EpochRandom) (zSample : List (List ℚ))
    (td vd : List (List ℚ))
    (hobj : args.trainExample = true ∨ args.trainEnergy = true) :
    (1 ≤ args.epochs → 1 ≤ args.logFreq →
      ∃ s, runEpochs args net ee oe fz randoms args.epochs
          (init_state td vd) = some s ∧
        s.fixedCoords ≠ [] ∧
        (run_training args net ee oe fz randoms zSample td vd).2 = true) ∧
    (args.epochs = 0 →
      run_training args net ee oe fz randoms zSample td vd =
        ([FinalEffect.saveModel ("models/" ++ args.outputName ++ ".pkl")],
          false)) := by
  constructor
  · intro hep hlf
    obtain ⟨s, hs, hready⟩ := runEpochs_ready args net ee oe fz randoms hobj
      (by omega) args.epochs (init_state td vd)
    obtain ⟨r1, r2, r3, r4, r5, r6, r7, r8⟩ := hready hep
    refine ⟨s, hs, r8, ?_⟩
    simp only [run_training, hs]
    exact finalize_success args net zSample s r1 r2 r3 r4 r5 r6 r7
  · intro hep
    simp [run_training, hep, runEpochs, init_state, finalize, finalPrints]

/-- C8 witness: the probe run with `epochs = 1`, `log_freq = 1` and both
objectives enabled completes its finalizing phase. -/
theorem finalizing_requires_first_epoch_witness :
    (probeArgs.trainExample = true ∨ probeArgs.trainEnergy = true) ∧
    (1 ≤ probeArgs.epochs) ∧ (1 ≤ probeArgs.logFreq) ∧
    ∃ s, runEpochs probeArgs probeNet probeEval probeOracle [5]
        (fun _ => probeRandom) probeArgs.epochs
        (init_state [[3]] [[4]]) = some s ∧
      s.fixedCoords ≠ [] ∧
      (run_training probeArgs probeNet probeEval probeOracle [5]
        (fun _ => probeRandom) [[9]] [[3]] [[4]]).2 = true :=
  ⟨Or.inl rfl, by decide, by decide,
   (finalizing_requires_first_epoch probeArgs probeNet probeEval probeOracle
     [5] (fun _ => probeRandom) [[9]] [[3]] [[4]] (Or.inl rfl)).1
     (by decide) (by decide)⟩

end BoltzmannTrain
